import Mathlib

/-!
Verification development for the request-handling pipeline of
`webserver.py` (class `SimpleHTTPServer`): bounded request reading,
request-line parsing, path resolution with directory-traversal
prevention, and response serialization.

Modelling conventions:
* a Python `str` is a `List Char` (`PyStr`), a Python `bytes` is a
  `List Nat` with every element below 256;
* the filesystem, the MIME-type table and the clock are external
  collaborators and are passed in as explicit parameters (`FS`, `date`);
* the POSIX path helpers `os.path.normpath` / `join` / `abspath` /
  `commonpath` used by the server are translated from their CPython
  (`posixpath`) definitions, since the traversal check depends on their
  exact behaviour.
-/

/-- Python `str` modelled as its list of unicode code points. -/
abbrev PyStr := List Char

/-- Character data of a Lean string literal, used to write `PyStr` literals. -/
def pstr (s : String) : PyStr := s.data

/-- The two-character CRLF sequence. -/
def crlf : PyStr := ['\r', '\n']

/-- `MAX_REQUEST_BYTES = 64 * 1024` (webserver.py line 22). -/
def MAX_REQUEST_BYTES : Nat := 64 * 1024

/-- Python `s.split(sep)` for a one-character separator `sep`:
keeps empty pieces, so the result is always nonempty. -/
def splitChar (sep : Char) : List Char → List (List Char)
  | [] => [[]]
  | c :: rest =>
    if c = sep then [] :: splitChar sep rest
    else
      match splitChar sep rest with
      | [] => [[c]]
      | p :: ps => (c :: p) :: ps

/-- Python `s.startswith("/")` / `posixpath.isabs`. -/
def isAbs (p : PyStr) : Bool :=
  match p with
  | c :: _ => c == '/'
  | [] => false

/-- One step of the component loop of `posixpath.normpath`: the body of
`for comp in comps` with accumulator `new_comps`.  `initSlashes` is the
`initial_slashes` value (0, 1 or 2) computed before the loop. -/
def npStep (initSlashes : Nat) (acc : List PyStr) (comp : PyStr) : List PyStr :=
  if comp = [] ∨ comp = ['.'] then acc
  else if comp ≠ ['.', '.'] ∨ (initSlashes = 0 ∧ acc = []) ∨
      (acc ≠ [] ∧ acc.getLast? = some ['.', '.']) then acc ++ [comp]
  else if acc ≠ [] then acc.dropLast
  else acc

/-- `posixpath.normpath`: collapse `.`/`..`/empty components, keeping the
POSIX "exactly two leading slashes" quirk; empty input yields `"."`. -/
def normpath (p : PyStr) : PyStr :=
  if p = [] then ['.']
  else
    let initSlashes : Nat :=
      if p.take 1 = ['/'] then
        if p.take 2 = ['/', '/'] ∧ ¬(p.take 3 = ['/', '/', '/']) then 2 else 1
      else 0
    let newComps := (splitChar '/' p).foldl (npStep initSlashes) []
    let out := List.replicate initSlashes '/' ++ List.intercalate ['/'] newComps
    if out = [] then ['.'] else out

/-- `posixpath.join a b` for two arguments: an absolute `b` discards `a`. -/
def pjoin (a b : PyStr) : PyStr :=
  if isAbs b then b
  else if a = [] ∨ a.getLast? = some '/' then a ++ b
  else a ++ '/' :: b

/-- `posixpath.abspath`: prepend the working directory if relative,
then normalize. -/
def abspath (cwd p : PyStr) : PyStr :=
  if isAbs p then normpath p else normpath (pjoin cwd p)

/-- The component view used by `posixpath.commonpath`: split on `/` and
drop empty and `"."` components. -/
def comps (p : PyStr) : List PyStr :=
  (splitChar '/' p).filter fun c => decide (c ≠ [] ∧ c ≠ ['.'])

/-- Longest common prefix of two lists (what `posixpath.commonpath`
computes for two paths via its `min`/`max` component scan). -/
def commonPref {α : Type} [DecidableEq α] : List α → List α → List α
  | a :: as, b :: bs => if a = b then a :: commonPref as bs else []
  | _, _ => []

/-- Boolean list-prefix test, used to state the containment property. -/
def isPref {α : Type} [DecidableEq α] : List α → List α → Bool
  | [], _ => true
  | _ :: _, [] => false
  | a :: as, b :: bs => a == b && isPref as bs

/-- `posixpath.commonpath([a, b])` for two paths: `none` models the
`ValueError` raised on mixing absolute and relative paths; otherwise the
shared leading slash (if absolute) plus the common component path. -/
def commonpath2 (a b : PyStr) : Option PyStr :=
  if isAbs a ≠ isAbs b then none
  else
    let pre : PyStr := if isAbs a then ['/'] else []
    some (pre ++ List.intercalate ['/'] (commonPref (comps a) (comps b)))

/-- UTF-8 encoding of one character (Python `str.encode("utf-8")`,
one scalar value). -/
def utf8EncodeChar (c : Char) : List Nat :=
  let n := c.toNat
  if n < 0x80 then [n]
  else if n < 0x800 then [0xC0 + n / 64, 0x80 + n % 64]
  else if n < 0x10000 then [0xE0 + n / 4096, 0x80 + (n / 64) % 64, 0x80 + n % 64]
  else [0xF0 + n / 262144, 0x80 + (n / 4096) % 64, 0x80 + (n / 64) % 64, 0x80 + n % 64]

/-- UTF-8 encoding of a string. -/
def utf8Encode (s : PyStr) : List Nat := (s.map utf8EncodeChar).flatten

/-- The replacement character U+FFFD emitted by `errors="replace"`. -/
def fffd : Char := Char.ofNat 0xFFFD

/-- Is `b` a UTF-8 continuation byte (`0x80..0xBF`)? -/
def isCont (b : Nat) : Bool := 0x80 ≤ b && b ≤ 0xBF

/-- Valid second byte of a three-byte sequence with lead `b`
(excludes overlong encodings and surrogates). -/
def cont3ok (b b2 : Nat) : Bool :=
  if b = 0xE0 then 0xA0 ≤ b2 && b2 ≤ 0xBF
  else if b = 0xED then 0x80 ≤ b2 && b2 ≤ 0x9F
  else isCont b2

/-- Valid second byte of a four-byte sequence with lead `b`
(excludes overlong encodings and code points above U+10FFFF). -/
def cont4ok (b b2 : Nat) : Bool :=
  if b = 0xF0 then 0x90 ≤ b2 && b2 ≤ 0xBF
  else if b = 0xF4 then 0x80 ≤ b2 && b2 ≤ 0x8F
  else isCont b2

/-- `bytes.decode("utf-8", errors="replace")`: total UTF-8 decoding that
substitutes U+FFFD for invalid data instead of failing.  On an invalid
sequence one replacement character is emitted and decoding resumes at
the first offending byte (replacement-character counts for truncated
multi-byte sequences are a simplification of the CPython codec; no
claim depends on them). -/
def decodeUtf8Aux : Nat → List Nat → List Char
  | 0, _ => []
  | _, [] => []
  | fuel + 1, b :: rest =>
    if b < 0x80 then Char.ofNat b :: decodeUtf8Aux fuel rest
    else if 0xC2 ≤ b ∧ b ≤ 0xDF then
      match rest with
      | [] => [fffd]
      | b2 :: rest2 =>
        if isCont b2 then
          Char.ofNat ((b - 0xC0) * 64 + (b2 - 0x80)) :: decodeUtf8Aux fuel rest2
        else fffd :: decodeUtf8Aux fuel (b2 :: rest2)
    else if 0xE0 ≤ b ∧ b ≤ 0xEF then
      match rest with
      | [] => [fffd]
      | b2 :: rest2 =>
        if ¬(cont3ok b b2 = true) then fffd :: decodeUtf8Aux fuel (b2 :: rest2)
        else
          match rest2 with
          | [] => [fffd]
          | b3 :: rest3 =>
            if ¬(isCont b3 = true) then fffd :: decodeUtf8Aux fuel (b3 :: rest3)
            else
              Char.ofNat ((b - 0xE0) * 4096 + (b2 - 0x80) * 64 + (b3 - 0x80)) ::
                decodeUtf8Aux fuel rest3
    else if 0xF0 ≤ b ∧ b ≤ 0xF4 then
      match rest with
      | [] => [fffd]
      | b2 :: rest2 =>
        if ¬(cont4ok b b2 = true) then fffd :: decodeUtf8Aux fuel (b2 :: rest2)
        else
          match rest2 with
          | [] => [fffd]
          | b3 :: rest3 =>
            if ¬(isCont b3 = true) then fffd :: decodeUtf8Aux fuel (b3 :: rest3)
            else
              match rest3 with
              | [] => [fffd]
              | b4 :: rest4 =>
                if ¬(isCont b4 = true) then fffd :: decodeUtf8Aux fuel (b4 :: rest4)
                else
                  Char.ofNat ((b - 0xF0) * 262144 + (b2 - 0x80) * 4096 +
                      (b3 - 0x80) * 64 + (b4 - 0x80)) :: decodeUtf8Aux fuel rest4
    else fffd :: decodeUtf8Aux fuel rest

/-- `bytes.decode("utf-8", errors="replace")` proper: run the decoder with
enough fuel (each step consumes at least one byte, so the input length
suffices and the fuel never runs out). -/
def decodeUtf8Replace (l : List Nat) : List Char := decodeUtf8Aux l.length l

/-- Hex digit value for `urllib.parse.unquote`. -/
def hexVal (c : Char) : Option Nat :=
  if '0' ≤ c ∧ c ≤ '9' then some (c.toNat - 48)
  else if 'a' ≤ c ∧ c ≤ 'f' then some (c.toNat - 87)
  else if 'A' ≤ c ∧ c ≤ 'F' then some (c.toNat - 55)
  else none

/-- Byte phase of `urllib.parse.unquote`: `%XX` with two hex digits
becomes the byte `XX`, every other character contributes its UTF-8
bytes (a `%` not followed by two hex digits stays literal). -/
def unquoteBytesAux : Nat → List Char → List Nat
  | 0, _ => []
  | _, [] => []
  | fuel + 1, c :: rest =>
    if c = '%' then
      match rest with
      | h1 :: h2 :: rest2 =>
        match hexVal h1, hexVal h2 with
        | some a, some b => (16 * a + b) :: unquoteBytesAux fuel rest2
        | _, _ => utf8EncodeChar '%' ++ unquoteBytesAux fuel (h1 :: h2 :: rest2)
      | [] => utf8EncodeChar '%' ++ unquoteBytesAux fuel []
      | [h1] => utf8EncodeChar '%' ++ unquoteBytesAux fuel [h1]
    else utf8EncodeChar c ++ unquoteBytesAux fuel rest

/-- Run the percent-decoder with enough fuel (each step consumes at
least one character, so the input length suffices). -/
def unquoteToBytes (l : List Char) : List Nat := unquoteBytesAux l.length l

/-- `urllib.parse.unquote(s)` with its defaults (`utf-8`, `errors="replace"`):
percent-decode, then UTF-8 decode with replacement.  (Literal characters
round-trip through their own UTF-8 bytes; CPython leaves non-ASCII
literals untouched, which agrees except for replacement-character
merging at run boundaries — irrelevant to every claim.) -/
def unquote (s : PyStr) : PyStr := decodeUtf8Replace (unquoteToBytes s)

/-- The filesystem and MIME-table collaborators consumed by
`handle_get`: `fexists`/`isfile` model `os.path.exists`/`os.path.isfile`,
`read` models opening and fully reading the file (`none` is an I/O
failure), `guess` models `mimetypes.guess_type` (first component). -/
structure FS where
  fexists : PyStr → Bool
  isfile : PyStr → Bool
  read : PyStr → Option (List Nat)
  guess : PyStr → Option PyStr

/-- An HttpResponse as built by `_send_response` (lines 144-160): status
code and text for the `HTTP/1.1 {code} {text}` line, the complete
header list in emission order, and the body bytes. -/
structure Response where
  code : Nat
  text : PyStr
  headers : List (PyStr × PyStr)
  body : List Nat
deriving DecidableEq

/-- Decimal rendering of a number, as Python string interpolation does. -/
def numStr (n : Nat) : PyStr := (Nat.repr n).data

/-- `_send_response` (lines 144-160): fixed base headers
Date, Server, Content-Length (with the optional override), Connection,
followed by the caller-supplied headers. -/
def sendResponse (date : PyStr) (code : Nat) (text : PyStr)
    (headers : List (PyStr × PyStr)) (body : List Nat)
    (override : Option Nat) : Response :=
  { code := code
    text := text
    headers :=
      [(pstr "Date", date),
       (pstr "Server", pstr "SimpleHTTPServer/1.0"),
       (pstr "Content-Length", numStr (override.getD body.length)),
       (pstr "Connection", pstr "close")] ++ headers
    body := body }

/-- The status line `f"HTTP/1.1 {code} {text}\r\n"` (line 155). -/
def statusLine (r : Response) : PyStr :=
  pstr "HTTP/1.1 " ++ numStr r.code ++ [' '] ++ r.text ++ crlf

/-- The header block `"".join(f"{k}: {v}\r\n" ...) + "\r\n"` (line 154). -/
def headerText (r : Response) : PyStr :=
  (r.headers.map fun kv => kv.1 ++ pstr ": " ++ kv.2 ++ crlf).flatten ++ crlf

/-- The byte stream written by the three `sendall` calls of
`_send_response` (lines 157-160); an empty body writes nothing extra,
which coincides with appending the empty list. -/
def serializeBytes (r : Response) : List Nat :=
  utf8Encode (statusLine r) ++ utf8Encode (headerText r) ++ r.body

/-- `send_ok` (lines 162-164). -/
def send_ok (date : PyStr) (body : List Nat) (ctype : PyStr)
    (override : Option Nat) : Response :=
  sendResponse date 200 (pstr "OK") [(pstr "Content-Type", ctype)] body override

/-- The HTML error document of `send_error` (lines 168-170). -/
def errorHtml (code : Nat) (text : PyStr) : PyStr :=
  pstr "<!DOCTYPE html>\n<html><head><meta charset=\"utf-8\"><title>" ++
    numStr code ++ [' '] ++ text ++
    pstr "</title></head>\n<body><h1>" ++ numStr code ++ [' '] ++ text ++
    pstr "</h1><p>The requested resource could not be processed.</p></body></html>"

/-- `send_error` (lines 166-171). -/
def send_error (date : PyStr) (code : Nat) (text : PyStr) : Response :=
  sendResponse date code text [(pstr "Content-Type", pstr "text/html; charset=utf-8")]
    (utf8Encode (errorHtml code text)) none

/-- Lines 104-109 of `handle_get`: strip the query string, percent-decode,
drop one leading slash, route empty or directory-style paths to
`index.html`. -/
def resolvePath (raw_path : PyStr) : PyStr :=
  let path := raw_path.takeWhile fun c => !(c == '?')
  let path := unquote path
  let path := if isAbs path then path.drop 1 else path
  if path = [] ∨ path.getLast? = some '/' then pjoin path (pstr "index.html") else path

/-- Line 111: `os.path.abspath(os.path.normpath(os.path.join(root, path)))`.
`cwd` is the process working directory consumed by `abspath` (unused
when the join result is already absolute). -/
def resolveTarget (cwd root raw_path : PyStr) : PyStr :=
  abspath cwd (normpath (pjoin root (resolvePath raw_path)))

/-- Lines 133-135: `mimetypes.guess_type` with the
`application/octet-stream` fallback for a missing or empty (falsy)
content type. -/
def guessContentType (fs : FS) (p : PyStr) : PyStr :=
  match fs.guess p with
  | some t => if t = [] then pstr "application/octet-stream" else t
  | none => pstr "application/octet-stream"

/-- `handle_get` (lines 102-140): containment check against the document
root via `commonpath` (a `ValueError`, modelled by `none`, is also
answered 403), then existence/regular-file check, file read, MIME lookup
with `application/octet-stream` fallback, and the GET/HEAD split. -/
def handle_get (fs : FS) (cwd root date raw_path : PyStr) (is_head : Bool) : Response :=
  let file_path := resolveTarget cwd root raw_path
  match commonpath2 root file_path with
  | none => send_error date 403 (pstr "Forbidden")
  | some cp =>
    if cp ≠ root then send_error date 403 (pstr "Forbidden")
    else if ¬(fs.fexists file_path = true ∧ fs.isfile file_path = true) then
      send_error date 404 (pstr "Not Found")
    else
      match fs.read file_path with
      | none => send_error date 500 (pstr "Internal Server Error")
      | some body =>
        let content_type := guessContentType fs file_path
        if is_head then send_ok date [] content_type (some body.length)
        else send_ok date body content_type none

/-- `request.split("\r\n", 1)[0]` (line 67): everything before the first
CRLF, or the whole string when it has none. -/
def firstLine : PyStr → PyStr
  | [] => []
  | '\r' :: '\n' :: _ => []
  | c :: rest => c :: firstLine rest

/-- The whitespace set of Python `str.split()` (`Py_UNICODE_ISSPACE`):
U+0009-U+000D, U+001C-U+001F, the space, NEL, NBSP, and the Unicode
space/line/paragraph separators. -/
def pyIsSpace (c : Char) : Bool :=
  let n := c.toNat
  (0x09 ≤ n && n ≤ 0x0D) || (0x1C ≤ n && n ≤ 0x1F) || n == 0x20 ||
    n == 0x85 || n == 0xA0 || n == 0x1680 ||
    (0x2000 ≤ n && n ≤ 0x200A) || n == 0x2028 || n == 0x2029 ||
    n == 0x202F || n == 0x205F || n == 0x3000

/-- Helper for `pySplitWs`, carrying the reversed current word. -/
def splitWsAux : List Char → List Char → List (List Char)
  | [], acc => if acc = [] then [] else [acc.reverse]
  | c :: rest, acc =>
    if pyIsSpace c then
      if acc = [] then splitWsAux rest []
      else acc.reverse :: splitWsAux rest []
    else splitWsAux rest (c :: acc)

/-- Python `str.split()` with no separator: split on whitespace runs,
discarding empty pieces (line 68). -/
def pySplitWs (l : PyStr) : List PyStr := splitWsAux l []

/-- Lines 67-82 of `handle_client`, after a nonempty request was read:
token-count check, then version check, then method check, then
`handle_get` with the HEAD flag. -/
def dispatch (fs : FS) (cwd root date : PyStr) (request : PyStr) : Response :=
  match pySplitWs (firstLine request) with
  | [method, path, version] =>
    if version ≠ pstr "HTTP/1.0" ∧ version ≠ pstr "HTTP/1.1" then
      send_error date 400 (pstr "Bad Request")
    else if method ≠ pstr "GET" ∧ method ≠ pstr "HEAD" then
      send_error date 405 (pstr "Method Not Allowed")
    else handle_get fs cwd root date path (method == pstr "HEAD")
  | _ => send_error date 400 (pstr "Bad Request")

/-- Does the byte buffer contain the terminator `b"\r\n\r\n"`? -/
def isTermAt : List Nat → Bool
  | a :: b :: c :: d :: _ => a == 13 && b == 10 && c == 13 && d == 10
  | _ => false

/-- `b"\r\n\r\n" in data` (line 93). -/
def hasTerm : List Nat → Bool
  | [] => false
  | a :: rest => isTermAt (a :: rest) || hasTerm rest

/-- The accumulation loop of `_recv_until_headers_end` (lines 91-99) over
the sequence of chunks the socket will deliver.  An empty chunk is a
zero-length read (peer closed); exhausting the list models the timeout
or the connection yielding nothing more, either way the loop returns
what was accumulated. -/
def recvLoop : List (List Nat) → List Nat → List Nat
  | [], data => data
  | c :: rest, data =>
    if hasTerm data = true ∨ MAX_REQUEST_BYTES ≤ data.length then data
    else if c = [] then data
    else recvLoop rest (data ++ c)

/-- `_recv_until_headers_end` (lines 88-100): accumulate, then decode as
UTF-8 with replacement. -/
def recv_until_headers_end (chunks : List (List Nat)) : PyStr :=
  decodeUtf8Replace (recvLoop chunks [])

/-- The single response `handle_client` (lines 60-86) attempts to send
for the given connection input, `none` when the decoded request is empty
and the handler returns silently. -/
def handle_client (fs : FS) (cwd root date : PyStr)
    (chunks : List (List Nat)) : Option Response :=
  let request := recv_until_headers_end chunks
  if request = [] then none else some (dispatch fs cwd root date request)

/-- Observable outcome of one run of `handle_client` on a connection:
which responses had their send attempted, which were fully sent, whether
the socket was closed, and whether an exception escaped the handler. -/
structure ConnTrace where
  attempts : List Response
  sent : List Response
  closed : Bool
  escaped : Bool
deriving DecidableEq

/-- Execution of `handle_client` (lines 60-86) with a fallible transport:
`sendOk i` tells whether the i-th whole-response send succeeds (a
response send is modelled atomically).  A send failure raises out of
`_send_response`, is caught by the bare `except`, which attempts a 500
error response; a failure of that attempt escapes the handler.  The
`finally` closes the socket on every path. -/
def runHandleClient (fs : FS) (cwd root date : PyStr)
    (chunks : List (List Nat)) (sendOk : Nat → Bool) : ConnTrace :=
  match handle_client fs cwd root date chunks with
  | none => ⟨[], [], true, false⟩
  | some r =>
    if sendOk 0 then ⟨[r], [r], true, false⟩
    else
      let e := send_error date 500 (pstr "Internal Server Error")
      if sendOk 1 then ⟨[r, e], [e], true, false⟩
      else ⟨[r, e], [], true, true⟩

/-- A well-formed document root as `SimpleHTTPServer.__init__` produces:
absolute, a fixpoint of `normpath`, and without the POSIX
double-leading-slash anomaly. -/
def GoodRoot (root : PyStr) : Prop :=
  isAbs root = true ∧ root.take 2 ≠ ['/', '/'] ∧ normpath root = root

/-- The length evolution of `recvLoop` when every chunk is a run of the
byte `bv` (no terminator can appear for `bv ≠ 13`): used to exhibit
concrete loop traces by pure arithmetic. -/
def lenLoop : List Nat → Nat → Nat
  | [], a => a
  | n :: rest, a =>
    if MAX_REQUEST_BYTES ≤ a then a
    else if n = 0 then a
    else lenLoop rest (a + n)

/-- Fixture: a process working directory. -/
def cwd0 : PyStr := pstr "/home/user"

/-- Fixture: a normalized absolute document root. -/
def root0 : PyStr := pstr "/srv/www"

/-- Fixture: a Date header value. -/
def date0 : PyStr := pstr "Sun, 12 Oct 2025 00:00:00 GMT"

/-- Fixture: the one regular file of the fixture filesystem. -/
def file0 : PyStr := pstr "/srv/www/index.html"

/-- Fixture filesystem: `/srv/www/index.html` exists with content bytes
`"hi"` and MIME type `text/html`; nothing else exists. -/
def fs0 : FS :=
  { fexists := fun p => p == file0
    isfile := fun p => p == file0
    read := fun p => if p == file0 then some [104, 105] else none
    guess := fun p => if p == file0 then some (pstr "text/html") else none }

/-- Fixture: the chunks of a well-formed GET request for `/index.html`. -/
def chunks0 : List (List Nat) :=
  [utf8Encode (pstr "GET /index.html HTTP/1.1\r\n\r\n")]

/-! ### List and path lemmas -/

theorem splitChar_ne_nil (sep : Char) (l : List Char) : splitChar sep l ≠ [] := by
  cases l with
  | nil => simp [splitChar]
  | cons c rest =>
    simp only [splitChar]
    split
    · simp
    · split <;> simp

theorem splitChar_cons_sep (sep : Char) (l : List Char) :
    splitChar sep (sep :: l) = [] :: splitChar sep l := by
  simp [splitChar]

theorem splitChar_cons_ne (sep c : Char) (l : List Char) (h : c ≠ sep) :
    splitChar sep (c :: l) =
      (c :: (splitChar sep l).headD []) :: (splitChar sep l).tail := by
  simp only [splitChar]
  rw [if_neg h]
  rcases h' : splitChar sep l with _ | ⟨p, ps⟩
  · exact absurd h' (splitChar_ne_nil sep l)
  · simp

theorem mem_splitChar_not_sep (sep : Char) (l : List Char) (x : List Char)
    (hx : x ∈ splitChar sep l) : sep ∉ x := by
  induction l generalizing x with
  | nil =>
    simp only [splitChar, List.mem_singleton] at hx
    subst hx
    simp
  | cons c rest ih =>
    by_cases hc : c = sep
    · subst hc
      rw [splitChar_cons_sep] at hx
      rcases List.mem_cons.mp hx with hx | hx
      · subst hx
        simp
      · exact ih x hx
    · rw [splitChar_cons_ne sep c rest hc] at hx
      rcases h' : splitChar sep rest with _ | ⟨p, ps⟩
      · exact absurd h' (splitChar_ne_nil sep rest)
      · rw [h'] at hx
        simp only [List.headD_cons, List.tail_cons] at hx
        rcases List.mem_cons.mp hx with hx | hx
        · subst hx
          intro hmem
          rcases List.mem_cons.mp hmem with hmem | hmem
          · exact hc hmem.symm
          · exact ih p (by simp [h']) hmem
        · exact ih x (by simp [h', hx])

theorem splitChar_append_no_sep (sep : Char) (a l : List Char) (ha : sep ∉ a) :
    splitChar sep (a ++ l) =
      (a ++ (splitChar sep l).headD []) :: (splitChar sep l).tail := by
  induction a with
  | nil =>
    rcases h' : splitChar sep l with _ | ⟨p, ps⟩
    · exact absurd h' (splitChar_ne_nil sep l)
    · simp [h']
  | cons x a' ih =>
    have hx : x ≠ sep := by
      intro h
      exact ha (by simp [h])
    have ha' : sep ∉ a' := fun h => ha (by simp [h])
    rw [List.cons_append, splitChar_cons_ne sep x (a' ++ l) hx, ih ha']
    simp

theorem splitChar_no_sep (sep : Char) (a : List Char) (ha : sep ∉ a) :
    splitChar sep a = [a] := by
  have := splitChar_append_no_sep sep a [] ha
  simpa [splitChar] using this

theorem intercalate_cons_cons (s a b : List Char) (t : List (List Char)) :
    List.intercalate s (a :: b :: t) = a ++ s ++ List.intercalate s (b :: t) := by
  simp [List.intercalate, List.intersperse]

theorem intercalate_single (s a : List Char) : List.intercalate s [a] = a := by
  simp [List.intercalate]

theorem splitChar_intercalate (l : List (List Char))
    (hl : ∀ x ∈ l, '/' ∉ x) (hne : l ≠ []) :
    splitChar '/' (List.intercalate ['/'] l) = l := by
  induction l with
  | nil => exact absurd rfl hne
  | cons a t ih =>
    cases t with
    | nil =>
      rw [intercalate_single]
      exact splitChar_no_sep '/' a (hl a (by simp))
    | cons b t' =>
      rw [intercalate_cons_cons]
      have ha : '/' ∉ a := hl a (by simp)
      have hrest : splitChar '/' (List.intercalate ['/'] (b :: t')) = b :: t' :=
        ih (fun x hx => hl x (by simp [hx])) (by simp)
      rw [List.append_assoc, List.singleton_append,
        splitChar_append_no_sep '/' a _ ha, splitChar_cons_sep, hrest]
      simp

theorem comps_slash_intercalate (l : List (List Char))
    (hl : ∀ x ∈ l, x ≠ [] ∧ x ≠ ['.'] ∧ '/' ∉ x) :
    comps ('/' :: List.intercalate ['/'] l) = l := by
  cases l with
  | nil => simp [comps, List.intercalate, splitChar, List.filter]
  | cons a t =>
    unfold comps
    have : ('/' :: List.intercalate ['/'] (a :: t)) =
        [] ++ ('/' :: List.intercalate ['/'] (a :: t)) := by simp
    rw [show ('/' :: List.intercalate ['/'] (a :: t)) =
        ('/' : Char) :: List.intercalate ['/'] (a :: t) from rfl,
      splitChar_cons_sep, splitChar_intercalate (a :: t)
        (fun x hx => (hl x hx).2.2) (by simp)]
    rw [List.filter_cons]
    simp only [decide_eq_true_eq]
    rw [if_neg (by simp)]
    exact List.filter_eq_self.mpr fun x hx => by
      simp only [decide_eq_true_eq]
      exact ⟨(hl x hx).1, (hl x hx).2.1⟩

theorem isPref_iff {α : Type} [DecidableEq α] (a b : List α) :
    isPref a b = true ↔ ∃ s, b = a ++ s := by
  induction a generalizing b with
  | nil => simp [isPref]
  | cons x as ih =>
    cases b with
    | nil => simp [isPref]
    | cons y bs =>
      simp only [isPref, Bool.and_eq_true, beq_iff_eq]
      constructor
      · rintro ⟨rfl, h⟩
        obtain ⟨s, rfl⟩ := (ih bs).mp h
        exact ⟨s, rfl⟩
      · rintro ⟨s, hs⟩
        rw [List.cons_append] at hs
        injection hs with h1 h2
        exact ⟨h1.symm, (ih bs).mpr ⟨s, h2⟩⟩

theorem commonPref_isPref_left {α : Type} [DecidableEq α] (a b : List α) :
    isPref (commonPref a b) a = true := by
  induction a generalizing b with
  | nil => cases b <;> simp [commonPref, isPref]
  | cons x as ih =>
    cases b with
    | nil => simp [commonPref, isPref]
    | cons y bs =>
      simp only [commonPref]
      split
      · simp [isPref, ih bs]
      · simp [isPref]

theorem commonPref_eq_left_iff {α : Type} [DecidableEq α] (a b : List α) :
    commonPref a b = a ↔ isPref a b = true := by
  induction a generalizing b with
  | nil => cases b <;> simp [commonPref, isPref]
  | cons x as ih =>
    cases b with
    | nil => simp [commonPref, isPref]
    | cons y bs =>
      simp only [commonPref, isPref, Bool.and_eq_true, beq_iff_eq]
      constructor
      · intro h
        split at h
        · injection h with h1 h2
          exact ⟨(by assumption), (ih bs).mp h2⟩
        · exact absurd h (by simp)
      · rintro ⟨rfl, h⟩
        rw [if_pos rfl, (ih bs).mpr h]

theorem length_le_sum_lengths (s : List (List Char)) (h : ∀ x ∈ s, x ≠ []) :
    s.length ≤ (s.map List.length).sum := by
  have := List.length_le_sum_of_one_le (s.map List.length) ?_
  · simpa using this
  · intro i hi
    obtain ⟨x, hx, rfl⟩ := List.mem_map.mp hi
    have : x ≠ [] := h x hx
    cases x with
    | nil => exact absurd rfl this
    | cons _ _ => simp

theorem length_intercalate_slash (l : List (List Char)) :
    (List.intercalate ['/'] l).length = (l.map List.length).sum + (l.length - 1) := by
  induction l with
  | nil => simp [List.intercalate]
  | cons a t ih =>
    cases t with
    | nil => simp [intercalate_single]
    | cons b t' =>
      rw [intercalate_cons_cons]
      have h := ih
      simp only [List.length_append, List.map_cons, List.sum_cons, List.length_cons,
        List.length_singleton, List.length_nil] at h ⊢
      omega

theorem intercalate_ne_of_proper_pref (p cr : List (List Char))
    (hp : isPref p cr = true) (hne : p ≠ cr) (hcr : ∀ x ∈ cr, x ≠ []) :
    List.intercalate ['/'] p ≠ List.intercalate ['/'] cr := by
  obtain ⟨s, rfl⟩ := (isPref_iff p cr).mp hp
  have hs : s ≠ [] := by rintro rfl; simp at hne
  intro heq
  have hlen := congrArg List.length heq
  rw [length_intercalate_slash, length_intercalate_slash] at hlen
  have hsm : s.length ≤ (s.map List.length).sum :=
    length_le_sum_lengths s fun x hx => hcr x (List.mem_append_right p hx)
  have hs1 : 1 ≤ s.length := by
    cases s with
    | nil => exact absurd rfl hs
    | cons _ _ => simp
  simp only [List.map_append, List.sum_append, List.length_append] at hlen
  omega

theorem npFold_invariant (i : Nat) (cs : List PyStr) (acc : List PyStr)
    (hcs : ∀ x ∈ cs, '/' ∉ x)
    (hacc : ∀ x ∈ acc, x ≠ [] ∧ x ≠ ['.'] ∧ '/' ∉ x) :
    ∀ x ∈ cs.foldl (npStep i) acc, x ≠ [] ∧ x ≠ ['.'] ∧ '/' ∉ x := by
  induction cs generalizing acc with
  | nil => exact hacc
  | cons c cs' ih =>
    rw [List.foldl_cons]
    apply ih (npStep i acc c) (fun x hx => hcs x (List.mem_cons_of_mem c hx))
    intro x hx
    unfold npStep at hx
    split at hx
    · exact hacc x hx
    · split at hx
      · rcases List.mem_append.mp hx with hx | hx
        · exact hacc x hx
        · rw [List.mem_singleton] at hx
          subst hx
          have hg : ¬(x = [] ∨ x = ['.']) := by assumption
          push_neg at hg
          exact ⟨hg.1, hg.2, hcs x (by simp)⟩
      · split at hx
        · exact hacc x (List.dropLast_subset acc hx)
        · exact hacc x hx

theorem isAbs_iff (p : PyStr) : isAbs p = true ↔ ∃ t, p = '/' :: t := by
  cases p with
  | nil => simp [isAbs]
  | cons c rest =>
    constructor
    · intro h
      have hc : c = '/' := by simpa [isAbs] using h
      exact ⟨rest, by rw [hc]⟩
    · rintro ⟨t, ht⟩
      injection ht with h1 h2
      simp [isAbs, h1]

theorem isAbs_pjoin (a b : PyStr) (ha : isAbs a = true) :
    isAbs (pjoin a b) = true := by
  obtain ⟨t, rfl⟩ := (isAbs_iff a).mp ha
  unfold pjoin
  split
  · assumption
  · split
    · rcases (by assumption : ('/' :: t) = [] ∨ ('/' :: t).getLast? = some '/') with h | _
      · exact absurd h (by simp)
      · simp [isAbs]
    · simp [isAbs]

theorem normpath_abs_repr (t : List Char) (h2 : ('/' :: t).take 2 ≠ ['/', '/']) :
    normpath ('/' :: t) =
      '/' :: List.intercalate ['/']
        ((splitChar '/' ('/' :: t)).foldl (npStep 1) []) ∧
      ∀ x ∈ (splitChar '/' ('/' :: t)).foldl (npStep 1) [],
        x ≠ [] ∧ x ≠ ['.'] ∧ '/' ∉ x := by
  constructor
  · unfold normpath
    rw [if_neg (by simp : ¬('/' :: t) = [])]
    rw [if_pos (by simp : ('/' :: t).take 1 = ['/'])]
    rw [if_neg (show ¬(('/' :: t).take 2 = ['/', '/'] ∧
      ¬('/' :: t).take 3 = ['/', '/', '/']) from fun hc => h2 hc.1)]
    rw [if_neg (by simp : ¬(List.replicate 1 '/' ++
      List.intercalate ['/'] ((splitChar '/' ('/' :: t)).foldl (npStep 1) []) = []))]
    simp [List.replicate]
  · exact npFold_invariant 1 (splitChar '/' ('/' :: t)) []
      (fun x hx => mem_splitChar_not_sep '/' ('/' :: t) x hx) (by simp)

theorem root_repr (root : PyStr) (h : GoodRoot root) :
    root = '/' :: List.intercalate ['/'] (comps root) ∧
      ∀ x ∈ comps root, x ≠ [] ∧ x ≠ ['.'] ∧ '/' ∉ x := by
  obtain ⟨habs, h2, hfix⟩ := h
  obtain ⟨t, rfl⟩ := (isAbs_iff root).mp habs
  obtain ⟨hrep, hinv⟩ := normpath_abs_repr t h2
  rw [hfix] at hrep
  have hcomps : comps ('/' :: t) =
      (splitChar '/' ('/' :: t)).foldl (npStep 1) [] := by
    conv_lhs => rw [hrep]
    exact comps_slash_intercalate _ hinv
  rw [hcomps]
  exact ⟨by rw [← hcomps] at hrep ⊢; exact hrep, hinv⟩

theorem containment_check (root fp : PyStr) (hr : GoodRoot root)
    (hfp : isAbs fp = true) :
    commonpath2 root fp =
      some ('/' :: List.intercalate ['/'] (commonPref (comps root) (comps fp))) ∧
    ('/' :: List.intercalate ['/'] (commonPref (comps root) (comps fp)) = root ↔
      isPref (comps root) (comps fp) = true) := by
  obtain ⟨hrep, hinv⟩ := root_repr root hr
  constructor
  · unfold commonpath2
    rw [hr.1, hfp]
    simp
  · constructor
    · intro hcp
      by_contra hnp
      have hcpr : commonPref (comps root) (comps fp) ≠ comps root := by
        intro h
        exact hnp ((commonPref_eq_left_iff (comps root) (comps fp)).mp h)
      have := intercalate_ne_of_proper_pref (commonPref (comps root) (comps fp))
        (comps root) (commonPref_isPref_left (comps root) (comps fp)) hcpr
        (fun x hx => (hinv x hx).1)
      have heq := hcp.trans hrep
      injection heq with h1 h2'
      exact this h2'
    · intro hpref
      rw [(commonPref_eq_left_iff (comps root) (comps fp)).mpr hpref]
      exact hrep.symm

theorem isAbs_resolveTarget (cwd root raw : PyStr) (hr : isAbs root = true) :
    isAbs (resolveTarget cwd root raw) = true := by
  unfold resolveTarget abspath
  have hj : isAbs (pjoin root (resolvePath raw)) = true := isAbs_pjoin _ _ hr
  obtain ⟨t, ht⟩ := (isAbs_iff _).mp hj
  rw [ht]
  have hn : ∀ u : List Char, isAbs (normpath ('/' :: u)) = true := by
    intro u
    unfold normpath
    rw [if_neg (by simp : ¬('/' :: u) = [])]
    rw [if_pos (by simp : ('/' :: u).take 1 = ['/'])]
    split
    · rw [if_neg (by simp : ¬(List.replicate 2 '/' ++
        List.intercalate ['/'] ((splitChar '/' ('/' :: u)).foldl (npStep 2) []) = []))]
      simp [List.replicate, isAbs]
    · rw [if_neg (by simp : ¬(List.replicate 1 '/' ++
        List.intercalate ['/'] ((splitChar '/' ('/' :: u)).foldl (npStep 1) []) = []))]
      simp [List.replicate, isAbs]
  obtain ⟨v, hv⟩ := (isAbs_iff _).mp (hn t)
  rw [hv]
  exact hn v

/-! ### Request-reader lemmas -/

theorem decodeUtf8Aux_ne_nil (fuel : Nat) (b : Nat) (rest : List Nat) :
    decodeUtf8Aux (fuel + 1) (b :: rest) ≠ [] := by
  unfold decodeUtf8Aux
  split
  · simp
  · split
    · rcases rest with _ | ⟨b2, rest2⟩
      · simp
      · dsimp only
        split <;> simp
    · split
      · rcases rest with _ | ⟨b2, rest2⟩
        · simp
        · dsimp only
          split
          · simp
          · rcases rest2 with _ | ⟨b3, rest3⟩
            · simp
            · dsimp only
              split <;> simp
      · split
        · rcases rest with _ | ⟨b2, rest2⟩
          · simp
          · dsimp only
            split
            · simp
            · rcases rest2 with _ | ⟨b3, rest3⟩
              · simp
              · dsimp only
                split
                · simp
                · rcases rest3 with _ | ⟨b4, rest4⟩
                  · simp
                  · dsimp only
                    split <;> simp
        · simp

theorem decode_ne_nil (l : List Nat) (h : l ≠ []) : decodeUtf8Replace l ≠ [] := by
  rcases l with _ | ⟨b, rest⟩
  · exact absurd rfl h
  · show decodeUtf8Aux (b :: rest).length (b :: rest) ≠ []
    rw [List.length_cons]
    exact decodeUtf8Aux_ne_nil rest.length b rest

theorem recvLoop_stop (c : List Nat) (rest : List (List Nat)) (data : List Nat)
    (h : hasTerm data = true ∨ MAX_REQUEST_BYTES ≤ data.length) :
    recvLoop (c :: rest) data = data := by
  unfold recvLoop
  rw [if_pos h]

theorem recvLoop_zero_read (rest : List (List Nat)) (data : List Nat)
    (h1 : hasTerm data = false) (h2 : data.length < MAX_REQUEST_BYTES) :
    recvLoop ([] :: rest) data = data := by
  unfold recvLoop
  rw [if_neg (by rw [h1]; simp; omega)]
  simp

theorem recvLoop_step (c : List Nat) (rest : List (List Nat)) (data : List Nat)
    (h1 : hasTerm data = false) (h2 : data.length < MAX_REQUEST_BYTES)
    (hc : c ≠ []) :
    recvLoop (c :: rest) data = recvLoop rest (data ++ c) := by
  conv_lhs => unfold recvLoop
  rw [if_neg (by rw [h1]; simp; omega)]
  rw [if_neg hc]

theorem recvLoop_len_le (chunks : List (List Nat)) (data : List Nat)
    (hch : ∀ c ∈ chunks, c.length ≤ 4096) :
    (recvLoop chunks data).length ≤ max data.length (MAX_REQUEST_BYTES + 4095) := by
  induction chunks generalizing data with
  | nil => simp [recvLoop]
  | cons c rest ih =>
    unfold recvLoop
    split
    · exact le_max_left _ _
    · split
      · exact le_max_left _ _
      · have hno := not_or.mp
          (by assumption : ¬(hasTerm data = true ∨ MAX_REQUEST_BYTES ≤ data.length))
        have hlt : data.length < MAX_REQUEST_BYTES := by
          have := hno.2
          omega
        have hc : c.length ≤ 4096 := hch c (by simp)
        have := ih (data ++ c) (fun x hx => hch x (by simp [hx]))
        have hbound : (data ++ c).length ≤ MAX_REQUEST_BYTES + 4095 := by
          rw [List.length_append]
          unfold MAX_REQUEST_BYTES at hlt ⊢
          omega
        calc (recvLoop rest (data ++ c)).length
            ≤ max (data ++ c).length (MAX_REQUEST_BYTES + 4095) := this
          _ ≤ MAX_REQUEST_BYTES + 4095 := by omega
          _ ≤ max data.length (MAX_REQUEST_BYTES + 4095) := le_max_right _ _

theorem isTermAt_head_ne (a : Nat) (l : List Nat) (ha : a ≠ 13) :
    isTermAt (a :: l) = false := by
  rcases l with _ | ⟨b, _ | ⟨c, _ | ⟨d, t⟩⟩⟩ <;> simp [isTermAt, ha]

theorem hasTerm_no13 (l : List Nat) (h : (13 : Nat) ∉ l) : hasTerm l = false := by
  induction l with
  | nil => rfl
  | cons a rest ih =>
    have ha : a ≠ 13 := fun hc => h (by simp [hc])
    rw [hasTerm, isTermAt_head_ne a rest ha, ih (fun hc => h (by simp [hc]))]
    rfl

theorem lenLoop_cons (n : Nat) (rest : List Nat) (a : Nat) :
    lenLoop (n :: rest) a =
      if MAX_REQUEST_BYTES ≤ a then a
      else if n = 0 then a else lenLoop rest (a + n) := rfl

theorem recvLoop_replicate (ns : List Nat) (a : Nat) :
    recvLoop (ns.map fun n => List.replicate n 65) (List.replicate a 65) =
      List.replicate (lenLoop ns a) 65 := by
  induction ns generalizing a with
  | nil => simp [recvLoop, lenLoop]
  | cons n rest ih =>
    have hterm : hasTerm (List.replicate a 65) = false :=
      hasTerm_no13 _ (by simp [List.mem_replicate])
    by_cases hcap : MAX_REQUEST_BYTES ≤ a
    · rw [List.map_cons,
        recvLoop_stop _ _ _ (Or.inr (by simp [hcap]))]
      rw [lenLoop_cons, if_pos hcap]
    · by_cases hn : n = 0
      · subst hn
        rw [List.map_cons, List.replicate_zero,
          recvLoop_zero_read _ _ hterm (by simp only [List.length_replicate]; omega)]
        rw [lenLoop_cons, if_neg hcap, if_pos rfl]
      · rw [List.map_cons,
          recvLoop_step _ _ _ hterm (by simp only [List.length_replicate]; omega)
            (by simp [hn]),
          ← List.replicate_add, ih]
        rw [lenLoop_cons, if_neg hcap, if_neg hn]

/-! ### Response shape lemmas -/

theorem handle_get_shape (fs : FS) (cwd root date raw_path : PyStr) (is_head : Bool) :
    ∃ code text extra body override,
      handle_get fs cwd root date raw_path is_head =
        sendResponse date code text extra body override := by
  unfold handle_get
  rcases hcp : commonpath2 root (resolveTarget cwd root raw_path) with _ | cp <;>
    simp only [hcp]
  · exact ⟨_, _, _, _, _, rfl⟩
  · split_ifs <;>
      first
        | exact ⟨_, _, _, _, _, rfl⟩
        | (rcases hrd : fs.read (resolveTarget cwd root raw_path) with _ | body <;>
            simp only [hrd] <;> exact ⟨_, _, _, _, _, rfl⟩)

theorem dispatch_shape (fs : FS) (cwd root date request : PyStr) :
    ∃ code text extra body override,
      dispatch fs cwd root date request =
        sendResponse date code text extra body override := by
  unfold dispatch
  rcases hp : pySplitWs (firstLine request) with _ | ⟨m, _ | ⟨p, _ | ⟨v, _ | ⟨w, t⟩⟩⟩⟩ <;>
    simp only [hp]
  · exact ⟨400, _, _, _, _, rfl⟩
  · exact ⟨400, _, _, _, _, rfl⟩
  · exact ⟨400, _, _, _, _, rfl⟩
  · split_ifs with h1 h2
    · exact ⟨400, _, _, _, _, rfl⟩
    · exact ⟨405, _, _, _, _, rfl⟩
    · exact handle_get_shape fs cwd root date p (m == pstr "HEAD")
  · exact ⟨400, _, _, _, _, rfl⟩

theorem handle_get_contained (fs : FS) (cwd root date raw_path : PyStr)
    (is_head : Bool) (hroot : GoodRoot root)
    (hin : isPref (comps root) (comps (resolveTarget cwd root raw_path)) = true) :
    handle_get fs cwd root date raw_path is_head =
      (if ¬(fs.fexists (resolveTarget cwd root raw_path) = true ∧
            fs.isfile (resolveTarget cwd root raw_path) = true) then
        send_error date 404 (pstr "Not Found")
      else
        match fs.read (resolveTarget cwd root raw_path) with
        | none => send_error date 500 (pstr "Internal Server Error")
        | some body =>
          if is_head then
            send_ok date [] (guessContentType fs (resolveTarget cwd root raw_path))
              (some body.length)
          else
            send_ok date body (guessContentType fs (resolveTarget cwd root raw_path))
              none) := by
  have habs := isAbs_resolveTarget cwd root raw_path hroot.1
  obtain ⟨hcp, hiff⟩ := containment_check root _ hroot habs
  have hcpe := hiff.mpr hin
  simp only [handle_get, hcp]
  rw [if_neg (fun hne => hne hcpe)]

theorem utf8Encode_append (a b : PyStr) :
    utf8Encode (a ++ b) = utf8Encode a ++ utf8Encode b := by
  simp [utf8Encode]

theorem handle_get_403 (fs : FS) (cwd root date raw_path : PyStr) (is_head : Bool)
    (hroot : GoodRoot root)
    (hesc : isPref (comps root) (comps (resolveTarget cwd root raw_path)) = false) :
    handle_get fs cwd root date raw_path is_head =
      send_error date 403 (pstr "Forbidden") := by
  have habs := isAbs_resolveTarget cwd root raw_path hroot.1
  obtain ⟨hcp, hiff⟩ := containment_check root _ hroot habs
  have hne : ¬('/' :: List.intercalate ['/']
      (commonPref (comps root) (comps (resolveTarget cwd root raw_path))) = root) := by
    intro h
    have := hiff.mp h
    rw [hesc] at this
    exact absurd this (by simp)
  simp only [handle_get, hcp]
  rw [if_pos hne]

theorem send_error_facts (date : PyStr) (code : Nat) (text : PyStr) :
    (send_error date code text).body = utf8Encode (errorHtml code text) ∧
    (send_error date code text).body ≠ [] ∧
    (pstr "Content-Length", numStr (utf8Encode (errorHtml code text)).length) ∈
      (send_error date code text).headers := by
  refine ⟨rfl, ?_, ?_⟩
  · intro h
    have hlen := congrArg List.length h
    simp only [send_error, sendResponse, errorHtml, utf8Encode_append,
      List.length_append, List.length_nil] at hlen
    have h1 : 0 < (utf8Encode
        (pstr "<!DOCTYPE html>\n<html><head><meta charset=\"utf-8\"><title>")).length := by
      decide
    omega
  · simp [send_error, sendResponse]

/-! ### The claims -/

/-- Claim C1: for every request, when the resolved absolute target (query
stripping, percent-decoding, one leading slash removed, `index.html`
appending, join onto the document root, normalization) does not have the
normalized absolute document root as a prefix component-path, the
response is 403 Forbidden, for any filesystem state (so regardless of
whether the target exists) and for both GET and HEAD. -/
theorem claim_C1 (fs : FS) (cwd root date raw_path : PyStr) (is_head : Bool)
    (hroot : GoodRoot root)
    (hesc : isPref (comps root) (comps (resolveTarget cwd root raw_path)) = false) :
    handle_get fs cwd root date raw_path is_head =
      send_error date 403 (pstr "Forbidden") :=
  handle_get_403 fs cwd root date raw_path is_head hroot hesc

/-- Witness for C1: the classic traversal request `/../../etc/passwd`
against root `/srv/www` resolves to `/etc/passwd`, fails the containment
check, and is answered 403. -/
theorem claim_C1_witness :
    isPref (comps root0) (comps (resolveTarget cwd0 root0 (pstr "/../../etc/passwd"))) =
      false ∧
    handle_get fs0 cwd0 root0 date0 (pstr "/../../etc/passwd") false =
      send_error date0 403 (pstr "Forbidden") :=
  ⟨by decide,
   claim_C1 fs0 cwd0 root0 date0 (pstr "/../../etc/passwd") false
     ⟨by decide, by decide, by decide⟩ (by decide)⟩

/-- Claim C2: for a regular file reachable by a valid request path, GET
answers 200 with the file's exact bytes, and HEAD answers 200 with an
empty body and a Content-Length header equal to the file's byte
length. -/
theorem claim_C2 (fs : FS) (cwd root date raw_path : PyStr) (body : List Nat)
    (hroot : GoodRoot root)
    (hin : isPref (comps root) (comps (resolveTarget cwd root raw_path)) = true)
    (hex : fs.fexists (resolveTarget cwd root raw_path) = true)
    (hif : fs.isfile (resolveTarget cwd root raw_path) = true)
    (hrd : fs.read (resolveTarget cwd root raw_path) = some body) :
    handle_get fs cwd root date raw_path false =
      send_ok date body (guessContentType fs (resolveTarget cwd root raw_path)) none ∧
    (handle_get fs cwd root date raw_path false).code = 200 ∧
    (handle_get fs cwd root date raw_path false).body = body ∧
    handle_get fs cwd root date raw_path true =
      send_ok date [] (guessContentType fs (resolveTarget cwd root raw_path))
        (some body.length) ∧
    (handle_get fs cwd root date raw_path true).code = 200 ∧
    (handle_get fs cwd root date raw_path true).body = [] ∧
    (pstr "Content-Length", numStr body.length) ∈
      (handle_get fs cwd root date raw_path true).headers := by
  have hget := handle_get_contained fs cwd root date raw_path false hroot hin
  have hhead := handle_get_contained fs cwd root date raw_path true hroot hin
  rw [if_neg (fun hc => hc ⟨hex, hif⟩), hrd] at hget hhead
  simp only [] at hget hhead
  refine ⟨hget, ?_, ?_, hhead, ?_, ?_, ?_⟩
  · rw [hget]; rfl
  · rw [hget]; rfl
  · rw [hhead]; rfl
  · rw [hhead]; rfl
  · rw [hhead]
    simp [send_ok, sendResponse]

/-- Witness for C2: GET and HEAD for `/index.html` against the fixture
filesystem, whose file content is the two bytes `"hi"`. -/
theorem claim_C2_witness :
    handle_get fs0 cwd0 root0 date0 (pstr "/index.html") false =
      send_ok date0 [104, 105]
        (guessContentType fs0 (resolveTarget cwd0 root0 (pstr "/index.html"))) none ∧
    (handle_get fs0 cwd0 root0 date0 (pstr "/index.html") true).body = [] ∧
    (pstr "Content-Length", numStr 2) ∈
      (handle_get fs0 cwd0 root0 date0 (pstr "/index.html") true).headers :=
  have h := claim_C2 fs0 cwd0 root0 date0 (pstr "/index.html") [104, 105]
    ⟨by decide, by decide, by decide⟩ (by decide) (by decide) (by decide) (by decide)
  ⟨h.1, h.2.2.2.2.2.1, h.2.2.2.2.2.2⟩

/-- Claim C9: an error outcome is answered through `send_error` even for
a HEAD request, so the response carries the full HTML error body and a
Content-Length equal to that body's byte length — unlike a successful
HEAD response, whose body is empty. -/
theorem claim_C9 (fs : FS) (cwd root date raw_path : PyStr)
    (hroot : GoodRoot root) :
    (isPref (comps root) (comps (resolveTarget cwd root raw_path)) = false →
      handle_get fs cwd root date raw_path true =
        send_error date 403 (pstr "Forbidden")) ∧
    (isPref (comps root) (comps (resolveTarget cwd root raw_path)) = true →
      fs.isfile (resolveTarget cwd root raw_path) = false →
      handle_get fs cwd root date raw_path true =
        send_error date 404 (pstr "Not Found")) ∧
    (∀ code text,
      (send_error date code text).body = utf8Encode (errorHtml code text) ∧
      (send_error date code text).body ≠ [] ∧
      (pstr "Content-Length", numStr (utf8Encode (errorHtml code text)).length) ∈
        (send_error date code text).headers) := by
  refine ⟨?_, ?_, fun code text => send_error_facts date code text⟩
  · intro hesc
    exact handle_get_403 fs cwd root date raw_path true hroot hesc
  · intro hin hnf
    rw [handle_get_contained fs cwd root date raw_path true hroot hin]
    rw [if_pos (fun hc => by rw [hnf] at hc; exact absurd hc.2 (by simp))]

/-- Witness for C9: a HEAD request for the missing `/nope.html` is
answered 404 with the nonempty HTML body. -/
theorem claim_C9_witness :
    handle_get fs0 cwd0 root0 date0 (pstr "/nope.html") true =
      send_error date0 404 (pstr "Not Found") ∧
    (send_error date0 404 (pstr "Not Found")).body ≠ [] :=
  have h := claim_C9 fs0 cwd0 root0 date0 (pstr "/nope.html")
    ⟨by decide, by decide, by decide⟩
  ⟨h.2.1 (by decide) (by decide), (h.2.2 404 (pstr "Not Found")).2.1⟩

/-- Claim C10: when the join of the (possibly `..`-containing) request
path onto the document root normalizes to a path still inside the root,
the containment check does not reject: the response is never 403, and a
readable regular file target is served normally by GET. -/
theorem claim_C10 (fs : FS) (cwd root date raw_path : PyStr) (is_head : Bool)
    (hroot : GoodRoot root)
    (hin : isPref (comps root) (comps (resolveTarget cwd root raw_path)) = true) :
    (handle_get fs cwd root date raw_path is_head).code ≠ 403 ∧
    (∀ body, fs.fexists (resolveTarget cwd root raw_path) = true →
      fs.isfile (resolveTarget cwd root raw_path) = true →
      fs.read (resolveTarget cwd root raw_path) = some body →
      handle_get fs cwd root date raw_path false =
        send_ok date body (guessContentType fs (resolveTarget cwd root raw_path))
          none) := by
  constructor
  · rw [handle_get_contained fs cwd root date raw_path is_head hroot hin]
    split_ifs <;>
      solve
        | simp [send_error, sendResponse]
        | (rcases hrd : fs.read (resolveTarget cwd root raw_path) with _ | body <;>
            simp [hrd, send_error, send_ok, sendResponse])
  · intro body hex hif hrd
    have hget := handle_get_contained fs cwd root date raw_path false hroot hin
    rw [if_neg (fun hc => hc ⟨hex, hif⟩), hrd] at hget
    exact hget

/-- Witness for C10: `/sub/../index.html` contains a `..` segment but
normalizes to `/srv/www/index.html`, inside the root; it is served with
the file's bytes. -/
theorem claim_C10_witness :
    (handle_get fs0 cwd0 root0 date0 (pstr "/sub/../index.html") false).code ≠ 403 ∧
    handle_get fs0 cwd0 root0 date0 (pstr "/sub/../index.html") false =
      send_ok date0 [104, 105]
        (guessContentType fs0 (resolveTarget cwd0 root0 (pstr "/sub/../index.html")))
        none :=
  have h := claim_C10 fs0 cwd0 root0 date0 (pstr "/sub/../index.html") false
    ⟨by decide, by decide, by decide⟩ (by decide)
  ⟨h.1, h.2 [104, 105] (by decide) (by decide) (by decide)⟩

/-- Claim C3: the parser takes the first line of the decoded request and
splits it on whitespace; not exactly 3 tokens gives 400; an unsupported
version token gives 400 before the method is examined; an unsupported
method with a supported version gives 405; otherwise handling proceeds
to path resolution with the HEAD flag. -/
theorem claim_C3 (fs : FS) (cwd root date request : PyStr) (m p v : PyStr) :
    ((pySplitWs (firstLine request)).length ≠ 3 →
      dispatch fs cwd root date request = send_error date 400 (pstr "Bad Request")) ∧
    (pySplitWs (firstLine request) = [m, p, v] →
      (¬(v = pstr "HTTP/1.0" ∨ v = pstr "HTTP/1.1") →
        dispatch fs cwd root date request = send_error date 400 (pstr "Bad Request")) ∧
      ((v = pstr "HTTP/1.0" ∨ v = pstr "HTTP/1.1") →
        ¬(m = pstr "GET" ∨ m = pstr "HEAD") →
        dispatch fs cwd root date request =
          send_error date 405 (pstr "Method Not Allowed")) ∧
      ((v = pstr "HTTP/1.0" ∨ v = pstr "HTTP/1.1") →
        (m = pstr "GET" ∨ m = pstr "HEAD") →
        dispatch fs cwd root date request =
          handle_get fs cwd root date p (m == pstr "HEAD"))) := by
  constructor
  · intro hlen
    rcases hp : pySplitWs (firstLine request) with _ | ⟨a, _ | ⟨b, _ | ⟨c, _ | ⟨d, t⟩⟩⟩⟩ <;>
      simp only [dispatch, hp]
    exact absurd (by rw [hp]; rfl) hlen
  · intro hparts
    have hd : dispatch fs cwd root date request =
        (if v ≠ pstr "HTTP/1.0" ∧ v ≠ pstr "HTTP/1.1" then
          send_error date 400 (pstr "Bad Request")
        else if m ≠ pstr "GET" ∧ m ≠ pstr "HEAD" then
          send_error date 405 (pstr "Method Not Allowed")
        else handle_get fs cwd root date p (m == pstr "HEAD")) := by
      simp only [dispatch, hparts]
    refine ⟨?_, ?_, ?_⟩
    · intro hv
      rw [hd, if_pos ⟨fun h => hv (Or.inl h), fun h => hv (Or.inr h)⟩]
    · intro hv hm
      rw [hd, if_neg (fun hc => by rcases hv with h | h <;> [exact hc.1 h; exact hc.2 h]),
        if_pos ⟨fun h => hm (Or.inl h), fun h => hm (Or.inr h)⟩]
    · intro hv hm
      rw [hd, if_neg (fun hc => by rcases hv with h | h <;> [exact hc.1 h; exact hc.2 h]),
        if_neg (fun hc => by rcases hm with h | h <;> [exact hc.1 h; exact hc.2 h])]

/-- Witness for C3: `POST /x HTTP/2.0` is rejected 400 (version checked
before method), `PUT /x HTTP/1.1` is rejected 405, and a request line
separated by the U+001C file-separator character — whitespace for
Python `str.split()` — parses into 3 tokens and proceeds to
`handle_get`. -/
theorem claim_C3_witness :
    dispatch fs0 cwd0 root0 date0 (pstr "POST /x HTTP/2.0\r\n\r\n") =
      send_error date0 400 (pstr "Bad Request") ∧
    dispatch fs0 cwd0 root0 date0 (pstr "PUT /x HTTP/1.1\r\n\r\n") =
      send_error date0 405 (pstr "Method Not Allowed") ∧
    dispatch fs0 cwd0 root0 date0 (pstr "GET\x1c/index.html\x1cHTTP/1.1\r\n\r\n") =
      handle_get fs0 cwd0 root0 date0 (pstr "/index.html")
        (pstr "GET" == pstr "HEAD") :=
  ⟨((claim_C3 fs0 cwd0 root0 date0 (pstr "POST /x HTTP/2.0\r\n\r\n")
      (pstr "POST") (pstr "/x") (pstr "HTTP/2.0")).2 (by decide)).1 (by decide),
   ((claim_C3 fs0 cwd0 root0 date0 (pstr "PUT /x HTTP/1.1\r\n\r\n")
      (pstr "PUT") (pstr "/x") (pstr "HTTP/1.1")).2 (by decide)).2.1
     (by decide) (by decide),
   ((claim_C3 fs0 cwd0 root0 date0 (pstr "GET\x1c/index.html\x1cHTTP/1.1\r\n\r\n")
      (pstr "GET") (pstr "/index.html") (pstr "HTTP/1.1")).2 (by decide)).2.2
     (by decide) (by decide)⟩

/-- Claim C8: every emitted response serializes as the status line
`HTTP/1.1 <code> <text>\r\n`, then the headers Date, Server,
Content-Length, Connection in that fixed order, then the caller-supplied
headers, then a blank line, then the body bytes; and every response the
dispatcher emits (whatever the request's version token) is built by this
serializer, so it always carries the `HTTP/1.1` status line. -/
theorem claim_C8 :
    (∀ (date : PyStr) (code : Nat) (text : PyStr) (extra : List (PyStr × PyStr))
        (body : List Nat) (override : Option Nat),
      serializeBytes (sendResponse date code text extra body override) =
        utf8Encode (pstr "HTTP/1.1 " ++ numStr code ++ [' '] ++ text ++ crlf) ++
        utf8Encode ((pstr "Date" ++ pstr ": " ++ date ++ crlf) ++
          ((pstr "Server" ++ pstr ": " ++ pstr "SimpleHTTPServer/1.0" ++ crlf) ++
          ((pstr "Content-Length" ++ pstr ": " ++
              numStr (override.getD body.length) ++ crlf) ++
          ((pstr "Connection" ++ pstr ": " ++ pstr "close" ++ crlf) ++
          ((extra.map fun kv => kv.1 ++ pstr ": " ++ kv.2 ++ crlf).flatten ++
            crlf))))) ++
        body) ∧
    (∀ (fs : FS) (cwd root date request : PyStr),
      ∃ code text extra body override,
        dispatch fs cwd root date request =
          sendResponse date code text extra body override) := by
  constructor
  · intro date code text extra body override
    simp [serializeBytes, statusLine, headerText, sendResponse,
      List.append_assoc]
  · intro fs cwd root date request
    exact dispatch_shape fs cwd root date request

/-- Decoding the empty byte string yields the empty string. -/
theorem decode_nil : decodeUtf8Replace [] = [] := rfl

/-- Claim C4 (amended): the reader stops as soon as the terminator is in
the buffer, stops once the accumulated size has reached the 65536-byte
cap (the final buffer may exceed the cap by less than one 4096-byte
read, staying below 65536 + 4096), stops on a zero-length read, returns
the accumulated data when the chunks are exhausted (timeout), and the
replacement decoding maps nonempty data to a nonempty string (it is
total by construction, so it never fails). -/
theorem claim_C4 (chunks : List (List Nat)) (data : List Nat)
    (hch : ∀ c ∈ chunks, c.length ≤ 4096) :
    (recvLoop chunks []).length < MAX_REQUEST_BYTES + 4096 ∧
    (hasTerm data = true → recvLoop chunks data = data) ∧
    (MAX_REQUEST_BYTES ≤ data.length → recvLoop chunks data = data) ∧
    recvLoop [] data = data ∧
    (hasTerm data = false → data.length < MAX_REQUEST_BYTES →
      recvLoop ([] :: chunks) data = data) ∧
    (recvLoop chunks [] ≠ [] → recv_until_headers_end chunks ≠ []) := by
  refine ⟨?_, ?_, ?_, rfl, recvLoop_zero_read chunks data, ?_⟩
  · have h := recvLoop_len_le chunks [] hch
    rw [List.length_nil] at h
    have h2 : max 0 (MAX_REQUEST_BYTES + 4095) = MAX_REQUEST_BYTES + 4095 := by simp
    omega
  · intro ht
    cases chunks with
    | nil => rfl
    | cons c rest => exact recvLoop_stop c rest data (Or.inl ht)
  · intro hc
    cases chunks with
    | nil => rfl
    | cons c rest => exact recvLoop_stop c rest data (Or.inr hc)
  · exact decode_ne_nil (recvLoop chunks [])

/-- Witness for C4 (amended): the fixture request chunk obeys the
4096-byte read bound and the accumulated size bound. -/
theorem claim_C4_witness :
    (∀ c ∈ chunks0, c.length ≤ 4096) ∧
    (recvLoop chunks0 []).length < MAX_REQUEST_BYTES + 4096 :=
  ⟨by decide, (claim_C4 chunks0 [] (by decide)).1⟩

/-- Counterexample for C4 as stated: with reads of at most 4096 bytes
(as `recv(4096)` guarantees) and no terminator, the accumulated buffer
can strictly exceed the 65536-byte cap — fifteen 4096-byte chunks, one
4095-byte chunk and one more 4096-byte chunk leave the loop with 69631
bytes, because the size check happens before each read. -/
theorem claim_C4_counterexample :
    MAX_REQUEST_BYTES <
      (recvLoop ((List.replicate 15 4096 ++ [4095, 4096]).map
        fun n => List.replicate n 65) []).length ∧
    ∀ c ∈ (List.replicate 15 4096 ++ [4095, 4096]).map
        (fun n => List.replicate n (65 : Nat)), c.length ≤ 4096 := by
  constructor
  · have h := recvLoop_replicate (List.replicate 15 4096 ++ [4095, 4096]) 0
    rw [List.replicate_zero] at h
    rw [h, List.length_replicate]
    decide
  · intro c hc
    obtain ⟨n, hn, rfl⟩ := List.mem_map.mp hc
    rw [List.length_replicate]
    rcases List.mem_append.mp hn with h | h
    · rw [List.eq_of_mem_replicate h]
    · simp only [List.mem_cons, List.not_mem_nil, or_false] at h
      rcases h with h | h <;> omega

/-- Claim C5 (amended): every connection is closed; at most one response
is ever fully sent on it; a connection delivering no bytes gets no
response; a connection delivering data gets exactly one response when
the send succeeds. -/
theorem claim_C5 (fs : FS) (cwd root date : PyStr) (chunks : List (List Nat))
    (sendOk : Nat → Bool) :
    (runHandleClient fs cwd root date chunks sendOk).closed = true ∧
    (runHandleClient fs cwd root date chunks sendOk).sent.length ≤ 1 ∧
    (recvLoop chunks [] = [] →
      (runHandleClient fs cwd root date chunks sendOk).sent = []) ∧
    (recvLoop chunks [] ≠ [] → sendOk 0 = true →
      (runHandleClient fs cwd root date chunks sendOk).sent.length = 1) := by
  rcases hh : handle_client fs cwd root date chunks with _ | r
  · have hrun : runHandleClient fs cwd root date chunks sendOk = ⟨[], [], true, false⟩ := by
      unfold runHandleClient
      rw [hh]
    rw [hrun]
    refine ⟨rfl, by simp, fun _ => rfl, ?_⟩
    intro hne _
    exfalso
    simp only [handle_client, recv_until_headers_end] at hh
    rw [if_neg (decode_ne_nil _ hne)] at hh
    exact Option.noConfusion hh
  · have hrun : runHandleClient fs cwd root date chunks sendOk =
        if sendOk 0 then ⟨[r], [r], true, false⟩
        else if sendOk 1 then
          ⟨[r, send_error date 500 (pstr "Internal Server Error")],
           [send_error date 500 (pstr "Internal Server Error")], true, false⟩
        else ⟨[r, send_error date 500 (pstr "Internal Server Error")], [], true, true⟩ := by
      unfold runHandleClient
      rw [hh]
    rw [hrun]
    refine ⟨?_, ?_, ?_, ?_⟩
    · cases h0 : sendOk 0 <;> cases h1 : sendOk 1 <;> simp [h0, h1]
    · cases h0 : sendOk 0 <;> cases h1 : sendOk 1 <;> simp [h0, h1]
    · intro hrec
      exfalso
      simp [handle_client, recv_until_headers_end, hrec, decode_nil] at hh
    · intro _ hs
      simp [hs]

/-- Witness for C5 (amended): the fixture GET connection delivers data
and, with a working transport, exactly one response is sent. -/
theorem claim_C5_witness :
    recvLoop chunks0 [] ≠ [] ∧
    (runHandleClient fs0 cwd0 root0 date0 chunks0 fun _ => true).sent.length = 1 :=
  ⟨by decide,
   (claim_C5 fs0 cwd0 root0 date0 chunks0 (fun _ => true)).2.2.2 (by decide) rfl⟩

/-- Counterexample for C5 as stated: a connection that delivers no bytes
is closed without any response being sent — not exactly one. -/
theorem claim_C5_counterexample :
    (runHandleClient fs0 cwd0 root0 date0 [] fun _ => true).sent = [] ∧
    (runHandleClient fs0 cwd0 root0 date0 [] fun _ => true).closed = true :=
  ⟨rfl, rfl⟩

/-- Claim C6: on every exit path of the per-connection handler — no
request, a response sent, a failed send with a successful 500 retry, or
an escaping exception — the connection socket is closed (the `finally`
of lines 85-86). -/
theorem claim_C6 (fs : FS) (cwd root date : PyStr) (chunks : List (List Nat))
    (sendOk : Nat → Bool) :
    (runHandleClient fs cwd root date chunks sendOk).closed = true := by
  rcases hh : handle_client fs cwd root date chunks with _ | r
  · have hrun : runHandleClient fs cwd root date chunks sendOk = ⟨[], [], true, false⟩ := by
      unfold runHandleClient
      rw [hh]
    rw [hrun]
  · have hrun : runHandleClient fs cwd root date chunks sendOk =
        if sendOk 0 then ⟨[r], [r], true, false⟩
        else if sendOk 1 then
          ⟨[r, send_error date 500 (pstr "Internal Server Error")],
           [send_error date 500 (pstr "Internal Server Error")], true, false⟩
        else ⟨[r, send_error date 500 (pstr "Internal Server Error")], [], true, true⟩ := by
      unfold runHandleClient
      rw [hh]
    rw [hrun]
    cases h0 : sendOk 0 <;> cases h1 : sendOk 1 <;> simp [h0, h1]

/-- Claim C7 (amended): a failed response send raises out of
`_send_response` (which has no handler) into the bare `except` of
`handle_client`, which makes exactly one further response attempt — a
best-effort 500 — before the socket is closed; if that second send also
fails, the exception escapes the handler. -/
theorem claim_C7 (fs : FS) (cwd root date : PyStr) (chunks : List (List Nat))
    (sendOk : Nat → Bool) (r : Response)
    (hr : handle_client fs cwd root date chunks = some r)
    (h0 : sendOk 0 = false) :
    (runHandleClient fs cwd root date chunks sendOk).attempts =
      [r, send_error date 500 (pstr "Internal Server Error")] ∧
    (runHandleClient fs cwd root date chunks sendOk).closed = true ∧
    (sendOk 1 = true →
      (runHandleClient fs cwd root date chunks sendOk).sent =
        [send_error date 500 (pstr "Internal Server Error")] ∧
      (runHandleClient fs cwd root date chunks sendOk).escaped = false) ∧
    (sendOk 1 = false →
      (runHandleClient fs cwd root date chunks sendOk).sent = [] ∧
      (runHandleClient fs cwd root date chunks sendOk).escaped = true) := by
  have hrun : runHandleClient fs cwd root date chunks sendOk =
      if sendOk 0 then ⟨[r], [r], true, false⟩
      else if sendOk 1 then
        ⟨[r, send_error date 500 (pstr "Internal Server Error")],
         [send_error date 500 (pstr "Internal Server Error")], true, false⟩
      else ⟨[r, send_error date 500 (pstr "Internal Server Error")], [], true, true⟩ := by
    unfold runHandleClient
    rw [hr]
  rw [hrun]
  simp only [h0]
  cases h1 : sendOk 1 <;> simp [h1]

/-- Witness for C7 (amended): on the fixture GET connection with a
transport whose first send fails and second succeeds, the handler
attempts the 200 response and then the 500 response, and no exception
escapes. -/
theorem claim_C7_witness :
    handle_client fs0 cwd0 root0 date0 chunks0 =
      some (send_ok date0 [104, 105] (pstr "text/html") none) ∧
    (runHandleClient fs0 cwd0 root0 date0 chunks0 fun i => decide (i ≠ 0)).attempts =
      [send_ok date0 [104, 105] (pstr "text/html") none,
       send_error date0 500 (pstr "Internal Server Error")] ∧
    (runHandleClient fs0 cwd0 root0 date0 chunks0 fun i => decide (i ≠ 0)).escaped =
      false :=
  have h := claim_C7 fs0 cwd0 root0 date0 chunks0 (fun i => decide (i ≠ 0))
    (send_ok date0 [104, 105] (pstr "text/html") none) (by decide) (by decide)
  ⟨by decide, h.1, (h.2.2.1 (by decide)).2⟩

/-- Counterexample for C7 as stated: with a transport on which every
send fails, the failed send of the 200 response triggers a further
response attempt (the 500), and the second failure escapes the handler
— the send failure is not swallowed. -/
theorem claim_C7_counterexample :
    (runHandleClient fs0 cwd0 root0 date0 chunks0 fun _ => false).attempts.length = 2 ∧
    (runHandleClient fs0 cwd0 root0 date0 chunks0 fun _ => false).escaped = true := by
  constructor <;> rfl
